import Mathlib

/-!
Shallow embedding of the persistence worker of the user-key-value-api
repository (`src/ukv_worker.py`, `src/ukv_prepared_statments.py`,
`src/app.py`), together with theorems settling the claims about it.

Python strings are modelled as `List Char`.  The MySQL table
`user_key_value` is modelled as a list of rows; MySQL's default
case-insensitive collation on string comparison is modelled by comparing
ASCII-lowercased strings.  Fallible paths are modelled by explicit outcome
types, and the connection/transaction discipline of the write operations by
an explicit event trace.
-/

set_option autoImplicit false

namespace UKV

/-- Python strings, modelled as lists of characters. -/
abbrev Str := List Char

/-- The character class matched by Python's regex `\s` on `str` input:
ASCII whitespace, the C1 separators, and the Unicode space characters. -/
def isPyWhitespace (c : Char) : Bool :=
  c = ' ' || c = '\t' || c = '\n' || c = '\x0b' || c = '\x0c' || c = '\r' ||
  c = '\x1c' || c = '\x1d' || c = '\x1e' || c = '\x1f' || c = '\x85' || c = '\xa0' ||
  c = ' ' || (0x2000 ≤ c.toNat && c.toNat ≤ 0x200a) ||
  c = ' ' || c = ' ' || c = ' ' || c = ' ' || c = '　'

/-- The character class of `ukv_worker.validate_key`'s third check, regex
`.*['\"\x60#_%].*`: apostrophe, double quote, backtick (codepoint 96),
hash, underscore, percent.  (Note: the asterisk is NOT in this class.) -/
def isDisallowedChar (c : Char) : Bool :=
  c = '\'' || c = '"' || c.toNat = 96 || c = '#' || c = '_' || c = '%'

/-- `startsWith pat s` decides whether `pat` is an initial segment of `s`. -/
def startsWith : Str → Str → Bool
  | [], _ => true
  | _ :: _, [] => false
  | p :: ps, c :: cs => p = c && startsWith ps cs

/-- `hasSub pat s` decides whether `pat` occurs contiguously inside `s`,
modelling the regex `.*PAT.*` of `validate_key`'s fourth check. -/
def hasSub (pat : Str) : Str → Bool
  | [] => startsWith pat []
  | c :: rest => startsWith pat (c :: rest) || hasSub pat rest

/-- Outcome of `UserKeyValueWorker.validate_key`: success, or the
`UKVKeyFormatException` naming the violated rule. -/
inductive KeyCheck where
  | ok
  | keyTooLong
  | keyWhitespace
  | keyBadChar
  | keyBadSeq
deriving DecidableEq, Repr

/-- `UserKeyValueWorker.validate_key` (ukv_worker.py, lines 110-128):
checks, in order, length ≤ 50, the whitespace regex, the disallowed
character regex, the disallowed sequence regex, and reports the first
violation.  (In the Python source each check is `re.match('.*X.*', key)`;
since `.` does not match a newline but `\s` does, and the later regexes
only run on keys already known to contain no whitespace — hence no
newline — each match is equivalent to plain containment.) -/
def validate_key (a_key : Str) : KeyCheck :=
  if 50 < a_key.length then .keyTooLong
  else if a_key.any isPyWhitespace then .keyWhitespace
  else if a_key.any isDisallowedChar then .keyBadChar
  else if hasSub ['-', '-'] a_key || hasSub ['*', '/'] a_key || hasSub ['/', '*'] a_key then .keyBadSeq
  else .ok

/-- Python `dict` assignment `d[k] = v` on an insertion-ordered
association list: overwrite in place if `k` is present, else append. -/
def dictInsert (k : Str) (v : KeyCheck) : List (Str × KeyCheck) → List (Str × KeyCheck)
  | [] => [(k, v)]
  | p :: rest => if p.1 = k then (k, v) :: rest else p :: dictInsert k v rest

/-- The loop of `UserKeyValueWorker._validate_key_list`: try each key in
order, recording `invalid_key_name_dict[key] = message` for each failure. -/
def collectInvalid : List (Str × KeyCheck) → List Str → List (Str × KeyCheck)
  | acc, [] => acc
  | acc, k :: rest =>
    if validate_key k = .ok then collectInvalid acc rest
    else collectInvalid (dictInsert k (validate_key k) acc) rest

/-- Outcome of `UserKeyValueWorker._validate_key_list`: success, or the
`UKVBadKeyListException` carrying the per-key error mapping. -/
inductive KeyListCheck where
  | ok
  | badKeyList (errs : List (Str × KeyCheck))
deriving DecidableEq, Repr

/-- `UserKeyValueWorker._validate_key_list` (ukv_worker.py, lines 132-149). -/
def validate_key_list (keys : List Str) : KeyListCheck :=
  let d := collectInvalid [] keys
  if d = [] then .ok else .badKeyList d

/-- ASCII lowercase folding, modelling Python `str.lower` (and MySQL's
default case-insensitive collation) on the ASCII range. -/
def toLowerChar (c : Char) : Char :=
  if 'A' ≤ c && c ≤ 'Z' then Char.ofNat (c.toNat + 32) else c

/-- Python `s.lower()`. -/
def lowerStr (s : Str) : Str := s.map toLowerChar

/-- Case-insensitive string equality: MySQL's default collation for the
`GLOBUS_IDENTITY_ID` and `KEY_NAME` comparisons, and the `.lower()`
comparison of `find_named_key_values`. -/
def ciEq (a b : Str) : Bool := lowerStr a = lowerStr b

/-- A row of the `user_key_value` table:
`(GLOBUS_IDENTITY_ID, KEY_NAME, KEY_VALUE)` (the timestamp column plays no
part in any claim). -/
structure Row where
  gid : Str
  key : Str
  val : Str
deriving DecidableEq, Repr

/-- `SQL_SELECT_USERID_NAMED_KEY_VALUES_str`: rows of the table whose
identity matches and whose key is in the `IN` set of requested keys, in
table order. -/
def sqlSelectNamed (table : List Row) (gid : Str) (keys : List Str) : List Row :=
  table.filter (fun r => ciEq r.gid gid && keys.any (fun k => ciEq k r.key))

/-- Result of the database phase of `find_named_key_values`: the list of
`(key, value)` dictionaries, or the `UKVRequestedKeysNotFoundException`
carrying the unfound-key list. -/
inductive FindResult where
  | found (kvs : List (Str × Str))
  | requestedKeysNotFound (missing : List Str)
deriving DecidableEq, Repr

/-- The body of `find_named_key_values` after validation (ukv_worker.py,
lines 258-290): fetch all rows for the identity whose key is in the
requested set; if the row count differs from the request count, collect
the requested keys with no case-insensitive match in the result set, and
raise if that list is non-empty; otherwise build the `{key, value}` list. -/
def find_named_result (table : List Row) (gid : Str) (req_key_list : List Str) : FindResult :=
  let res := sqlSelectNamed table gid req_key_list
  if res.length ≠ req_key_list.length then
    let unfound := req_key_list.filter (fun k => !res.any (fun r => ciEq k r.key))
    if unfound ≠ [] then .requestedKeysNotFound unfound
    else .found (res.map (fun r => (r.key, r.val)))
  else .found (res.map (fun r => (r.key, r.val)))

/-- Whether some row of the table matches identity `gid` and key `k`
case-insensitively, i.e. whether `k` has a stored record for the
identity. -/
def hasMatch (table : List Row) (gid k : Str) : Bool :=
  table.any (fun r => ciEq r.gid gid && ciEq r.key k)

/-- The store's uniqueness invariant on `(GLOBUS_IDENTITY_ID, KEY_NAME)`
restricted to one identity: among the rows for `gid`, the lowercased keys
are pairwise distinct. -/
def uniqueKeysFor (table : List Row) (gid : Str) : Prop :=
  ((table.filter (fun r => ciEq r.gid gid)).map (fun r => lowerStr r.key)).Nodup

instance (table : List Row) (gid : Str) : Decidable (uniqueKeysFor table gid) := by
  unfold uniqueKeysFor
  infer_instance

/-- One `(identity, key, value)` tuple of the MySQL
`INSERT ... ON DUPLICATE KEY UPDATE`: if a row with matching identity and
key exists, its fields are replaced by the new tuple; otherwise the new
row is inserted. -/
def upsertRow (gid k v : Str) : List Row → List Row
  | [] => [⟨gid, k, v⟩]
  | r :: rest =>
    if ciEq r.gid gid && ciEq r.key k then ⟨gid, k, v⟩ :: rest
    else r :: upsertRow gid k v rest

/-- The committed effect of the batch upsert statement: apply the tuples
in order. -/
def applyUpserts (gid : Str) (pairs : List (Str × Str)) (store : List Row) : List Row :=
  pairs.foldl (fun st p => upsertRow gid p.1 p.2 st) store

/-- The rows matched by `SQL_DELETE_USERID_KEY_VALUE` (and by
`SQL_SELECT_USERID_KEY_VALUE`). -/
def matchingRows (gid k : Str) (store : List Row) : List Row :=
  store.filter (fun r => ciEq r.gid gid && ciEq r.key k)

/-- The committed effect of `SQL_DELETE_USERID_KEY_VALUE`. -/
def deleteRows (gid k : Str) (store : List Row) : List Row :=
  store.filter (fun r => !(ciEq r.gid gid && ciEq r.key k))

/-! ### The statement builder for the batch upsert (claim C2) -/

/-- Number of `%s` parameter placeholders in a piece of SQL text. -/
def countPS : Str → Nat
  | [] => 0
  | c :: rest => (if c = '%' ∧ rest.head? = some 's' then 1 else 0) + countPS rest

/-- Python `', '.join(...)`. -/
def joinCommaSpace : List Str → Str
  | [] => []
  | [x] => x
  | x :: y :: ys => x ++ (',' :: ' ' :: joinCommaSpace (y :: ys))

/-- Python `str.replace`, fuelled so that the recursion is structural (the
fuel `s.length` is never exhausted early, since every step consumes at
least one character of the subject for a non-empty pattern). -/
def strReplaceAux (pat repl : Str) : Nat → Str → Str
  | _, [] => []
  | 0, s => s
  | fuel + 1, c :: rest =>
    if startsWith pat (c :: rest) && !pat.isEmpty then
      repl ++ strReplaceAux pat repl fuel (rest.drop (pat.length - 1))
    else c :: strReplaceAux pat repl fuel rest

/-- Python `s.replace(pat, repl)`. -/
def strReplace (s pat repl : Str) : Str := strReplaceAux pat repl s.length s

/-- `ukv_prepared_statments.SQL_UPSERT_USERID_KEY_VALUES_str`
(lines 54-62), with the Python adjacent string fragments concatenated. -/
def SQL_UPSERT_USERID_KEY_VALUES_str : Str :=
  ("INSERT INTO user_key_value (GLOBUS_IDENTITY_ID, KEY_NAME, KEY_VALUE, UPSERT_UTC_TIME) VALUES generated_placeholders_for_new_tuples AS ukv ON DUPLICATE KEY UPDATE GLOBUS_IDENTITY_ID=ukv.GLOBUS_IDENTITY_ID ,KEY_NAME=ukv.KEY_NAME ,KEY_VALUE=ukv.KEY_VALUE ,UPSERT_UTC_TIME=NOW()").data

/-- The marker replaced by the generated value tuples. -/
def genMarker : Str := ("generated_placeholders_for_new_tuples").data

/-- The per-tuple text built at ukv_worker.py line 431, the f-string
interpolating the identity between single quotes:
`('<globus_id>', %s, %s, NOW())` — two placeholders per tuple, with the
identity concatenated into the SQL text rather than bound. -/
def newTuplePlaceholder (gid : Str) : Str :=
  ('(' :: '\'' :: []) ++ gid ++ ('\'' :: []) ++ (", %s, %s, NOW())").data

/-- The prepared statement text built by `upsert_key_values`
(lines 431-433) for identity `gid` and `m` key/value pairs. -/
def upsert_stmt (gid : Str) (m : Nat) : Str :=
  strReplace SQL_UPSERT_USERID_KEY_VALUES_str genMarker
    (joinCommaSpace (List.replicate m (newTuplePlaceholder gid)))

/-- `param_list` as accumulated by the loop of `upsert_key_values`
(line 418): `param_list.extend([kv_dict['key'], value_json])` per pair. -/
def upsertParamList (pairs : List (Str × Str)) : List Str :=
  pairs.foldl (fun acc p => acc ++ [p.1, p.2]) []

/-! ### Connection and transaction events (claims C4, C5, C9) -/

/-- Observable actions on the database connection, in program order. -/
inductive Ev where
  | acquire
  | setAutocommit (b : Bool)
  | exec
  | commit
  | rollback
  | release
deriving DecidableEq, Repr

/-- Events of the shared write-transaction skeleton on the success path:
acquire, save and disable autocommit, execute, commit, restore the saved
autocommit setting, then release (close) the connection on leaving the
`with closing(...)` scope. -/
def txSuccessEvents (initialAC : Bool) : List Ev :=
  [.acquire, .setAutocommit false, .exec, .commit, .setAutocommit initialAC, .release]

/-- Events on the path where the execute raises `mysql.connector.errors.Error`:
the except block rolls back and raises `UKVDataStoreQueryException`, so the
`dbConn.autocommit = existing_autocommit_setting` statement placed after
the try/except is skipped, and the connection is released by the exception
propagating out of the `with closing(...)` scope. -/
def txFailureEvents : List Ev :=
  [.acquire, .setAutocommit false, .exec, .rollback, .release]

/-! ### Request payloads and `_load_endpoint_json` -/

/-- A request as seen by `_load_endpoint_json`: the content-type flag and
the parsed body.  `parsed = none` models a body that fails to parse as
JSON (werkzeug raises BadRequest); `parsed = some none` models the JSON
literal `null` (Python `None`); `parsed = some (some p)` a parsed value. -/
structure Req (P : Type) where
  isJson : Bool
  parsed : Option (Option P)

/-- The two exception kinds of `_load_endpoint_json`. -/
inductive LoadErr where
  | reqFormat
  | valFormat
deriving DecidableEq, Repr

/-- `UserKeyValueWorker._load_endpoint_json` (lines 167-187): require a
JSON content type, a parseable body, a non-`None` payload, a payload of
one of the endpoint's accepted types, and a non-empty payload. -/
def load_endpoint_json {P : Type} (accepts : P → Bool) (size : P → Nat) (r : Req P) :
    Except LoadErr P :=
  if !r.isJson then .error .reqFormat
  else
    match r.parsed with
    | none => .error .valFormat
    | some none => .error .valFormat
    | some (some p) =>
      if !accepts p then .error .valFormat
      else if size p ≤ 0 then .error .valFormat
      else .ok p

/-- Payload of the find-named endpoint (`endpoint_types=[list]`), whose
elements are used as key strings. -/
inductive FindPayload where
  | notList
  | keys (ks : List Str)
deriving DecidableEq, Repr

def findAccepts : FindPayload → Bool
  | .notList => false
  | .keys _ => true

def findSize : FindPayload → Nat
  | .notList => 0
  | .keys ks => ks.length

/-- Payload of the single upsert endpoint (`endpoint_types=[list, dict]`),
generic over the type `V` of decoded JSON values: a list-or-dict
collection with its Python `len`, or any other JSON value. -/
inductive OnePayload (V : Type) where
  | collection (v : V) (sz : Nat)
  | scalar (v : V)

def oneAccepts {V : Type} : OnePayload V → Bool
  | .collection _ _ => true
  | .scalar _ => false

def oneSize {V : Type} : OnePayload V → Nat
  | .collection _ sz => sz
  | .scalar _ => 0

/-- The decoded JSON value of the single-upsert payload, to which
`json.dumps` is applied. -/
def onePayloadVal {V : Type} : OnePayload V → V
  | .collection v _ => v
  | .scalar v => v

/-- One element of the batch-upsert payload list: either not a dict, or a
dict projected to its `key` and `value` members (the `key` member, when
present, is the key string the code passes to `validate_key`). -/
inductive PElem (V : Type) where
  | nonDict
  | dict (keyMem : Option Str) (valMem : Option V)

/-- Payload of the batch upsert endpoint (`endpoint_types=[list]`). -/
inductive ManyPayload (V : Type) where
  | notList
  | elems (es : List (PElem V))

def manyAccepts {V : Type} : ManyPayload V → Bool
  | .notList => false
  | .elems _ => true

def manySize {V : Type} : ManyPayload V → Nat
  | .notList => 0
  | .elems es => es.length

/-! ### Operation outcomes and runs -/

/-- The outcome of a worker operation, named by the exception raised or
the success value returned. -/
inductive Outcome where
  | stored (n : Nat)
  | foundList (kvs : List (Str × Str))
  | missingKeys (ks : List Str)
  | deleted
  | reqFormatError
  | valFormatError
  | keyFormatError
  | badKeyListError (errs : List (Str × KeyCheck))
  | keyNotFound
  | dataStoreError
  | integrityError
deriving DecidableEq, Repr

/-- Whether an outcome is one of the request/value/key format errors. -/
def Outcome.isFormatError : Outcome → Bool
  | .reqFormatError => true
  | .valFormatError => true
  | .keyFormatError => true
  | .badKeyListError _ => true
  | _ => false

def loadErrOutcome : LoadErr → Outcome
  | .reqFormat => .reqFormatError
  | .valFormat => .valFormatError

/-- A run of an operation: its outcome, the committed table contents when
it finishes, and the connection events it performed. -/
structure OpRun where
  outcome : Outcome
  store : List Row
  events : List Ev
deriving DecidableEq, Repr

/-! ### The worker operations -/

/-- The per-element loop of `upsert_key_values` (ukv_worker.py, lines
396-418): each element must be a dict with `key` and `value` members and a
non-empty serialized value; on success, the ordered `(key, value_json)`
pairs.  `dumps` models `json.dumps` on decoded values. -/
def scanPairs {V : Type} (dumps : V → Str) : List (PElem V) → Except Unit (List (Str × Str))
  | [] => .ok []
  | .nonDict :: _ => .error ()
  | .dict none _ :: _ => .error ()
  | .dict (some _) none :: _ => .error ()
  | .dict (some k) (some v) :: rest =>
    let vj := dumps v
    if vj.length ≤ 0 then .error ()
    else
      match scanPairs dumps rest with
      | .error e => .error e
      | .ok tail => .ok ((k, vj) :: tail)

/-- Keys of a Python dict built by repeated assignment: first-occurrence
order, duplicates collapsed. -/
def pyDictKeysAux (seen : List Str) : List Str → List Str
  | [] => []
  | k :: rest =>
    if k ∈ seen then pyDictKeysAux seen rest
    else k :: pyDictKeysAux (k :: seen) rest

/-- The keys of `new_user_key_value_dict` passed to `_validate_key_list`
(line 420). -/
def pyDictKeys (ks : List Str) : List Str := pyDictKeysAux [] ks

/-- `UserKeyValueWorker.upsert_key_values` (ukv_worker.py, lines 384-450):
load the payload, scan the pairs, validate the key list — all before any
database access — then run the write transaction.  `dbOk` selects whether
the execute succeeds or raises a mysql error. -/
def upsert_key_values_op {V : Type} (dumps : V → Str) (gid : Str)
    (req : Req (ManyPayload V)) (initialAC dbOk : Bool) (store : List Row) : OpRun :=
  match load_endpoint_json manyAccepts manySize req with
  | .error e => ⟨loadErrOutcome e, store, []⟩
  | .ok .notList => ⟨.valFormatError, store, []⟩
  | .ok (.elems es) =>
    match scanPairs dumps es with
    | .error _ => ⟨.valFormatError, store, []⟩
    | .ok pairs =>
      match validate_key_list (pyDictKeys (pairs.map Prod.fst)) with
      | .badKeyList errs => ⟨.badKeyListError errs, store, []⟩
      | .ok =>
        if dbOk then ⟨.stored es.length, applyUpserts gid pairs store, txSuccessEvents initialAC⟩
        else ⟨.dataStoreError, store, txFailureEvents⟩

/-- `UserKeyValueWorker.upsert_key_value` (ukv_worker.py, lines 350-382):
load the payload (any non-empty list or dict), then store its serialized
text under the already-validated key in one transaction. -/
def upsert_key_value_op {V : Type} (dumps : V → Str) (gid valid_key : Str)
    (req : Req (OnePayload V)) (initialAC dbOk : Bool) (store : List Row) : OpRun :=
  match load_endpoint_json oneAccepts oneSize req with
  | .error e => ⟨loadErrOutcome e, store, []⟩
  | .ok p =>
    if dbOk then
      ⟨.stored 1, upsertRow gid valid_key (dumps (onePayloadVal p)) store,
        txSuccessEvents initialAC⟩
    else ⟨.dataStoreError, store, txFailureEvents⟩

/-- `UserKeyValueWorker.delete_key_value` (ukv_worker.py, lines 452-488):
run the delete in a transaction; after commit, branch on
`curs.rowcount`: one row → confirmation, zero rows →
`UKVKeyNotFoundException`, more → `UKVDataStoreQueryException`.  Both
raises on the committed path happen after the autocommit restore. -/
def delete_key_value_op (gid valid_key : Str) (initialAC dbOk : Bool)
    (store : List Row) : OpRun :=
  if dbOk then
    let n := (matchingRows gid valid_key store).length
    let store' := deleteRows gid valid_key store
    if n = 1 then ⟨.deleted, store', txSuccessEvents initialAC⟩
    else if n = 0 then ⟨.keyNotFound, store', txSuccessEvents initialAC⟩
    else ⟨.integrityError, store', txSuccessEvents initialAC⟩
  else ⟨.dataStoreError, store, txFailureEvents⟩

/-- `UserKeyValueWorker.find_named_key_values` (ukv_worker.py, lines
246-301): load the key-list payload and validate every key before the
connection is acquired, then run the read query. -/
def find_named_op (table : List Row) (gid : Str) (req : Req FindPayload) : OpRun :=
  match load_endpoint_json findAccepts findSize req with
  | .error e => ⟨loadErrOutcome e, table, []⟩
  | .ok .notList => ⟨.valFormatError, table, []⟩
  | .ok (.keys ks) =>
    match validate_key_list ks with
    | .badKeyList errs => ⟨.badKeyListError errs, table, []⟩
    | .ok =>
      match find_named_result table gid ks with
      | .found kvs => ⟨.foundList kvs, table, [.acquire, .exec, .release]⟩
      | .requestedKeysNotFound missing =>
        ⟨.missingKeys missing, table, [.acquire, .exec, .release]⟩

/-- `UserKeyValueWorker.get_key_value` (ukv_worker.py, lines 193-233) for
a valid key: fetch one row or raise `UKVKeyNotFoundException`. -/
def get_key_value_op (gid valid_key : Str) (store : List Row) : OpRun :=
  match (matchingRows gid valid_key store).head? with
  | none => ⟨.keyNotFound, store, [.acquire, .exec, .release]⟩
  | some r => ⟨.foundList [(r.key, r.val)], store, [.acquire, .exec, .release]⟩

/-- The app.py `DELETE /user/keys/<key>` route (lines 367-389): the key
from the URL is validated before the worker — and hence any database
access — is invoked. -/
def route_delete_key_value (gid key : Str) (initialAC dbOk : Bool)
    (store : List Row) : OpRun :=
  match validate_key key with
  | .ok => delete_key_value_op gid key initialAC dbOk store
  | _ => ⟨.keyFormatError, store, []⟩

/-- The app.py `GET /user/keys/<key>` route (lines 178-199): the key from
the URL is validated before the worker is invoked. -/
def route_get_key_value (gid key : Str) (store : List Row) : OpRun :=
  match validate_key key with
  | .ok => get_key_value_op gid key store
  | _ => ⟨.keyFormatError, store, []⟩

/-- The app.py `PUT /user/keys/<key>` route (lines 132-152): the key from
the URL is validated before the worker is invoked. -/
def route_upsert_key_value {V : Type} (dumps : V → Str) (gid key : Str)
    (req : Req (OnePayload V)) (initialAC dbOk : Bool) (store : List Row) : OpRun :=
  match validate_key key with
  | .ok => upsert_key_value_op dumps gid key req initialAC dbOk store
  | _ => ⟨.keyFormatError, store, []⟩

example : validate_key ('a' :: 'b' :: []) = .ok := by decide
example : validate_key ('a' :: ' ' :: 'b' :: []) = .keyWhitespace := by decide
example : validate_key ('a' :: '*' :: 'b' :: []) = .ok := by decide
example : validate_key ('a' :: '#' :: []) = .keyBadChar := by decide
example : validate_key ('a' :: '-' :: '-' :: 'b' :: []) = .keyBadSeq := by decide
example : validate_key_list (('a' :: []) :: ('#' :: []) :: []) =
    .badKeyList ((('#' :: []), KeyCheck.keyBadChar) :: []) := by decide

/-! ## Theorems about the key validator (claims C6, C3, C10) -/

/-- C6: a key of length ≤ 50 with no whitespace, none of the disallowed
characters, and none of the disallowed substrings validates successfully;
an invalid key is reported against the first rule violated, in the fixed
order: length, whitespace, disallowed characters, disallowed substrings. -/
theorem C6_validate_key_first_violation (k : Str) :
    (validate_key k = .ok ↔
      (k.length ≤ 50 ∧ (∀ c ∈ k, isPyWhitespace c = false) ∧
        (∀ c ∈ k, isDisallowedChar c = false) ∧
        hasSub ['-', '-'] k = false ∧ hasSub ['*', '/'] k = false ∧
        hasSub ['/', '*'] k = false)) ∧
    (50 < k.length → validate_key k = .keyTooLong) ∧
    ((∃ c ∈ k, isPyWhitespace c = true) → k.length ≤ 50 →
      validate_key k = .keyWhitespace) ∧
    ((∃ c ∈ k, isDisallowedChar c = true) → k.length ≤ 50 →
      (∀ c ∈ k, isPyWhitespace c = false) → validate_key k = .keyBadChar) ∧
    ((hasSub ['-', '-'] k || hasSub ['*', '/'] k || hasSub ['/', '*'] k) = true →
      k.length ≤ 50 → (∀ c ∈ k, isPyWhitespace c = false) →
      (∀ c ∈ k, isDisallowedChar c = false) → validate_key k = .keyBadSeq) := by
  unfold validate_key
  refine ⟨?_, ?_, ?_, ?_, ?_⟩ <;>
    split_ifs with h1 h2 h3 h4 <;>
    simp_all [List.any_eq_true, List.any_eq_false] <;>
    first
    | omega
    | (intro h5 h6
       rcases h4 with (hx | hx) | hx <;> simp_all)

/-- C6 witness: each branch of the theorem applied at a concrete key. -/
theorem C6_witness :
    validate_key (List.replicate 51 'a') = .keyTooLong ∧
    validate_key ('a' :: ' ' :: []) = .keyWhitespace ∧
    validate_key ('a' :: '#' :: []) = .keyBadChar ∧
    validate_key ('a' :: '-' :: '-' :: []) = .keyBadSeq ∧
    validate_key ('a' :: 'b' :: []) = .ok :=
  ⟨(C6_validate_key_first_violation _).2.1 (by decide),
   (C6_validate_key_first_violation _).2.2.1 (by decide) (by decide),
   (C6_validate_key_first_violation _).2.2.2.1 (by decide) (by decide) (by decide),
   (C6_validate_key_first_violation _).2.2.2.2 (by decide) (by decide) (by decide) (by decide),
   (C6_validate_key_first_violation _).1.mpr (by decide)⟩

/-- C3: the claim lists the asterisk among the characters rejected by the
disallowed-character check, but `validate_key`'s character class
`['\"\x60#_%]` does not contain it (and the code's own route documentation
in app.py says keys cannot contain `*`): the key `a*b` passes the length
and whitespace checks, contains `*`, and validates successfully. -/
theorem C3_star_key_accepted :
    ('a' :: '*' :: 'b' :: []).length ≤ 50 ∧
    (∀ c ∈ ('a' :: '*' :: 'b' :: []), isPyWhitespace c = false) ∧
    '*' ∈ ('a' :: '*' :: 'b' :: []) ∧
    validate_key ('a' :: '*' :: 'b' :: []) = .ok := by decide

/-- C10: the empty string passes every validation rule of `validate_key`,
and a key list containing it passes `_validate_key_list`. -/
theorem C10_empty_key_valid :
    validate_key [] = .ok ∧ validate_key_list ([] :: []) = .ok := by decide

/-! ## Theorems about `_validate_key_list` (claim C7) -/

theorem dictInsert_mem (k : Str) (e : KeyCheck) (d : List (Str × KeyCheck))
    (hd : ∀ p ∈ d, validate_key p.1 = p.2) (he : validate_key k = e)
    (q : Str × KeyCheck) :
    q ∈ dictInsert k e d ↔ (q ∈ d ∨ q = (k, e)) := by
  induction d with
  | nil => simp [dictInsert]
  | cons p rest ih =>
    by_cases hp : p.1 = k
    · have hpe : p = (k, e) := by
        obtain ⟨p1, p2⟩ := p
        simp only at hp
        subst hp
        have h2 := hd (p1, p2) (List.mem_cons_self _ _)
        simp only at h2
        rw [← he, ← h2]
      subst hpe
      simp only [dictInsert, hp, if_pos]
      simp only [List.mem_cons]
      tauto
    · simp only [dictInsert, hp, if_neg, not_false_iff, List.mem_cons]
      rw [ih (fun p hp => hd p (List.mem_cons_of_mem _ hp))]
      tauto

theorem collectInvalid_mem (keys : List Str) (acc : List (Str × KeyCheck))
    (hacc : ∀ p ∈ acc, validate_key p.1 = p.2 ∧ p.2 ≠ .ok) (q : Str × KeyCheck) :
    q ∈ collectInvalid acc keys ↔
      (q ∈ acc ∨ (q.1 ∈ keys ∧ validate_key q.1 = q.2 ∧ q.2 ≠ .ok)) := by
  induction keys generalizing acc with
  | nil => simp [collectInvalid]
  | cons k rest ih =>
    by_cases hk : validate_key k = .ok
    · rw [show collectInvalid acc (k :: rest) = collectInvalid acc rest by
        simp [collectInvalid, hk]]
      rw [ih acc hacc]
      constructor
      · rintro (h | ⟨h1, h2, h3⟩)
        · exact Or.inl h
        · exact Or.inr ⟨List.mem_cons_of_mem _ h1, h2, h3⟩
      · rintro (h | ⟨h1, h2, h3⟩)
        · exact Or.inl h
        · rcases List.mem_cons.mp h1 with rfl | h1
          · exact absurd h2 (by rw [hk]; exact fun hx => h3 hx.symm)
          · exact Or.inr ⟨h1, h2, h3⟩
    · rw [show collectInvalid acc (k :: rest) =
          collectInvalid (dictInsert k (validate_key k) acc) rest by
        simp [collectInvalid, hk]]
      have hacc' : ∀ p ∈ dictInsert k (validate_key k) acc,
          validate_key p.1 = p.2 ∧ p.2 ≠ .ok := by
        intro p hp
        rcases (dictInsert_mem k (validate_key k) acc
            (fun p hp => (hacc p hp).1) rfl p).mp hp with h | rfl
        · exact hacc p h
        · exact ⟨rfl, fun hx => hk hx⟩
      rw [ih _ hacc']
      rw [dictInsert_mem k (validate_key k) acc (fun p hp => (hacc p hp).1) rfl q]
      constructor
      · rintro ((h | rfl) | ⟨h1, h2, h3⟩)
        · exact Or.inl h
        · exact Or.inr ⟨List.mem_cons_self _ _, rfl, fun hx => hk hx⟩
        · exact Or.inr ⟨List.mem_cons_of_mem _ h1, h2, h3⟩
      · rintro (h | ⟨h1, h2, h3⟩)
        · exact Or.inl (Or.inl h)
        · rcases List.mem_cons.mp h1 with rfl | h1
          · left; right
            obtain ⟨q1, q2⟩ := q
            simp only at h2
            rw [← h2]
          · exact Or.inr ⟨h1, h2, h3⟩

/-- C7: `_validate_key_list` validates every key (it does not stop at the
first bad one) and raises `UKVBadKeyListException` exactly when some key
is invalid; the attached mapping contains an entry for every offending
key, every entry is an offending key with its rule, and the mapping is
non-empty. -/
theorem C7_validate_key_list_spec (keys : List Str) :
    (validate_key_list keys = .ok ↔ ∀ k ∈ keys, validate_key k = .ok) ∧
    (∀ errs, validate_key_list keys = .badKeyList errs →
      errs ≠ [] ∧
      (∀ k ∈ keys, validate_key k ≠ .ok → (k, validate_key k) ∈ errs) ∧
      (∀ p ∈ errs, p.1 ∈ keys ∧ validate_key p.1 = p.2 ∧ p.2 ≠ .ok)) := by
  have hmem := collectInvalid_mem keys [] (by simp)
  simp only [List.not_mem_nil, false_or] at hmem
  constructor
  · constructor
    · intro h k hk
      by_contra hbad
      have : (k, validate_key k) ∈ collectInvalid [] keys :=
        (hmem _).mpr ⟨hk, rfl, hbad⟩
      rw [validate_key_list] at h
      split_ifs at h with hd
      exact absurd this (by rw [hd]; exact List.not_mem_nil _)
    · intro hall
      rw [validate_key_list]
      split_ifs with hd
      · rfl
      · exfalso
        apply hd
        rw [List.eq_nil_iff_forall_not_mem]
        intro q hq
        obtain ⟨h1, h2, h3⟩ := (hmem q).mp hq
        exact h3 (h2 ▸ hall q.1 h1 ▸ rfl)
  · intro errs herrs
    rw [validate_key_list] at herrs
    split_ifs at herrs with hd
    obtain rfl : collectInvalid [] keys = errs := by
      cases herrs; rfl
    refine ⟨hd, ?_, fun p hp => (hmem p).mp hp⟩
    intro k hk hbad
    exact (hmem _).mpr ⟨hk, rfl, hbad⟩

/-- C7 witness: the theorem applied to the concrete key list containing
one valid and one invalid key. -/
theorem C7_witness :
    ((('#' :: []), KeyCheck.keyBadChar) :: []) ≠ [] ∧
    (∀ k ∈ (('a' :: []) :: ('#' :: []) :: []), validate_key k ≠ .ok →
      (k, validate_key k) ∈ ((('#' :: []), KeyCheck.keyBadChar) :: [])) ∧
    (∀ p ∈ ((('#' :: []), KeyCheck.keyBadChar) :: []),
      p.1 ∈ (('a' :: []) :: ('#' :: []) :: []) ∧ validate_key p.1 = p.2 ∧
        p.2 ≠ .ok) :=
  (C7_validate_key_list_spec (('a' :: []) :: ('#' :: []) :: [])).2 _ (by decide)

/-! ## Theorems about `find_named_key_values` (claim C1) -/

theorem ciEq_iff (a b : Str) : ciEq a b = true ↔ lowerStr a = lowerStr b := by
  simp [ciEq]

theorem ciEq_symm (a b : Str) : ciEq a b = ciEq b a := by
  unfold ciEq
  exact decide_eq_decide.mpr eq_comm

theorem mem_sqlSelectNamed (table : List Row) (gid : Str) (keys : List Str) (r : Row) :
    r ∈ sqlSelectNamed table gid keys ↔
      r ∈ table ∧ ciEq r.gid gid = true ∧ ∃ k ∈ keys, ciEq k r.key = true := by
  simp [sqlSelectNamed, List.mem_filter, List.any_eq_true, and_assoc]

/-- For a requested key, membership of a case-insensitive match in the
result set of the `IN` query is the same as membership in the table. -/
theorem res_any_eq_hasMatch (table : List Row) (gid : Str) (req : List Str) (k : Str)
    (hk : k ∈ req) :
    (sqlSelectNamed table gid req).any (fun r => ciEq k r.key) = hasMatch table gid k := by
  rw [Bool.eq_iff_iff]
  simp only [hasMatch, List.any_eq_true, Bool.and_eq_true, mem_sqlSelectNamed]
  constructor
  · rintro ⟨r, ⟨hrt, hgid, -⟩, hkey⟩
    exact ⟨r, hrt, hgid, by rw [← ciEq_symm]; exact hkey⟩
  · rintro ⟨r, hrt, hgid, hkey⟩
    rw [ciEq_symm] at hkey
    exact ⟨r, ⟨hrt, hgid, ⟨k, hk, hkey⟩⟩, hkey⟩

theorem filter_and_sublist {α : Type} (p q : α → Bool) (l : List α) :
    List.Sublist (l.filter (fun a => p a && q a)) (l.filter p) :=
  List.monotone_filter_right l (fun a h => ((Bool.and_eq_true _ _).mp h).1)

/-- Under the uniqueness invariant, the rows returned by the batch find
carry pairwise distinct lowercased keys. -/
theorem sqlSelectNamed_keys_nodup (table : List Row) (gid : Str) (keys : List Str)
    (huniq : uniqueKeysFor table gid) :
    ((sqlSelectNamed table gid keys).map (fun r => lowerStr r.key)).Nodup := by
  have h1 : List.Sublist (sqlSelectNamed table gid keys)
      (table.filter (fun r => ciEq r.gid gid)) := by
    unfold sqlSelectNamed
    exact filter_and_sublist (fun r => ciEq r.gid gid)
      (fun r => keys.any (fun k => ciEq k r.key)) table
  exact List.Nodup.sublist (List.Sublist.map (fun r => lowerStr r.key) h1) huniq

/-- C1: under the store's uniqueness invariant, `find_named_key_values`
is all-or-nothing: if some requested key has no case-insensitive match for
the identity, the call fails with exactly the list of missing requested
keys; if every requested key matches, it returns a `{key, value}` entry
for every requested key.  A partial result is never returned. -/
theorem C1_find_named_all_or_nothing (table : List Row) (gid : Str) (req : List Str)
    (huniq : uniqueKeysFor table gid) :
    ((∃ k ∈ req, hasMatch table gid k = false) →
      find_named_result table gid req =
        .requestedKeysNotFound (req.filter (fun k => !hasMatch table gid k))) ∧
    ((∀ k ∈ req, hasMatch table gid k = true) →
      ∃ kvs, find_named_result table gid req = .found kvs ∧
        ∀ k ∈ req, ∃ p ∈ kvs, lowerStr p.1 = lowerStr k) := by
  constructor
  · rintro ⟨k0, hk0req, hk0miss⟩
    have hlen : (sqlSelectNamed table gid req).length < req.length := by
      have hSnodup : ((sqlSelectNamed table gid req).map (fun r => lowerStr r.key)).Nodup :=
        sqlSelectNamed_keys_nodup table gid req huniq
      have hSsubT : ((sqlSelectNamed table gid req).map (fun r => lowerStr r.key)) ⊆
          (req.map lowerStr).dedup := by
        intro x hx
        rw [List.mem_map] at hx
        obtain ⟨r, hr, rfl⟩ := hx
        rw [mem_sqlSelectNamed] at hr
        obtain ⟨-, -, k, hkreq, hkci⟩ := hr
        rw [List.mem_dedup, List.mem_map]
        exact ⟨k, hkreq, (ciEq_iff _ _).mp hkci⟩
      have hx0T : lowerStr k0 ∈ (req.map lowerStr).dedup := by
        rw [List.mem_dedup, List.mem_map]
        exact ⟨k0, hk0req, rfl⟩
      have hx0S : lowerStr k0 ∉
          ((sqlSelectNamed table gid req).map (fun r => lowerStr r.key)) := by
        intro hx
        rw [List.mem_map] at hx
        obtain ⟨r, hr, hkey⟩ := hx
        rw [mem_sqlSelectNamed] at hr
        obtain ⟨hrt, hgid, -⟩ := hr
        have hmt : hasMatch table gid k0 = true := by
          rw [hasMatch, List.any_eq_true]
          exact ⟨r, hrt, by
            rw [Bool.and_eq_true]
            exact ⟨hgid, (ciEq_iff _ _).mpr hkey⟩⟩
        rw [hmt] at hk0miss
        cases hk0miss
      have hsub' : ((sqlSelectNamed table gid req).map (fun r => lowerStr r.key)) ⊆
          ((req.map lowerStr).dedup).erase (lowerStr k0) := by
        intro x hx
        have hne : x ≠ lowerStr k0 := fun h => hx0S (h ▸ hx)
        exact (List.mem_erase_of_ne hne).mpr (hSsubT hx)
      have h1 : ((sqlSelectNamed table gid req).map (fun r => lowerStr r.key)).length ≤
          (((req.map lowerStr).dedup).erase (lowerStr k0)).length :=
        List.Subperm.length_le (List.Nodup.subperm hSnodup hsub')
      have h2 : (((req.map lowerStr).dedup).erase (lowerStr k0)).length =
          ((req.map lowerStr).dedup).length - 1 :=
        List.length_erase_of_mem hx0T
      have h3 : ((req.map lowerStr).dedup).length ≤ req.length := by
        calc ((req.map lowerStr).dedup).length ≤ (req.map lowerStr).length :=
              List.Sublist.length_le (List.dedup_sublist _)
          _ = req.length := List.length_map _ _
      have h4 : 1 ≤ ((req.map lowerStr).dedup).length :=
        List.length_pos.mpr (List.ne_nil_of_mem hx0T)
      have h5 : ((sqlSelectNamed table gid req).map (fun r => lowerStr r.key)).length =
          (sqlSelectNamed table gid req).length := List.length_map _ _
      omega
    have hfilter_eq : req.filter
        (fun k => !(sqlSelectNamed table gid req).any (fun r => ciEq k r.key)) =
        req.filter (fun k => !hasMatch table gid k) :=
      List.filter_congr (fun k hk => by rw [res_any_eq_hasMatch table gid req k hk])
    have hk0mem : k0 ∈ req.filter (fun k => !hasMatch table gid k) :=
      List.mem_filter.mpr ⟨hk0req, by rw [hk0miss]; rfl⟩
    simp only [find_named_result]
    rw [if_pos (show (sqlSelectNamed table gid req).length ≠ req.length by omega)]
    rw [hfilter_eq]
    rw [if_pos (List.ne_nil_of_mem hk0mem)]
  · intro hall
    refine ⟨(sqlSelectNamed table gid req).map (fun r => (r.key, r.val)), ?_, ?_⟩
    · simp only [find_named_result]
      by_cases hlen : (sqlSelectNamed table gid req).length ≠ req.length
      · rw [if_pos hlen]
        have hfe : req.filter
            (fun k => !(sqlSelectNamed table gid req).any (fun r => ciEq k r.key)) = [] := by
          rw [List.filter_eq_nil_iff]
          intro k hk
          rw [res_any_eq_hasMatch table gid req k hk, hall k hk]
          simp
        rw [hfe]
        rw [if_neg (show ¬(([] : List Str) ≠ []) from fun h => h rfl)]
      · rw [if_neg hlen]
    · intro k hk
      have hm := hall k hk
      rw [hasMatch, List.any_eq_true] at hm
      obtain ⟨r, hrt, hmatch⟩ := hm
      rw [Bool.and_eq_true] at hmatch
      refine ⟨(r.key, r.val), List.mem_map.mpr ⟨r, ?_, rfl⟩, ?_⟩
      · rw [mem_sqlSelectNamed]
        refine ⟨hrt, hmatch.1, k, hk, ?_⟩
        rw [ciEq_symm]
        exact hmatch.2
      · exact (ciEq_iff _ _).mp hmatch.2

/-- C1 witness: the spec's example — stored keys `a`, `b` for `U1`, request
`[a, b, c]` — fails with missing-key list `[c]` and no partial result. -/
theorem C1_witness :
    find_named_result
      (⟨("U1").data, ("a").data, ("1").data⟩ :: ⟨("U1").data, ("b").data, ("2").data⟩ :: [])
      ("U1").data (("a").data :: ("b").data :: ("c").data :: []) =
      .requestedKeysNotFound (("c").data :: []) :=
  ((C1_find_named_all_or_nothing _ _ _ (by decide)).1 (by decide)).trans (by decide)

/-! ## Theorems about the batch-upsert statement builder (claim C2) -/

theorem countPS_cons_ne (c : Char) (s : Str) (hc : c ≠ '%') :
    countPS (c :: s) = countPS s := by
  show (if c = '%' ∧ s.head? = some 's' then 1 else 0) + countPS s = countPS s
  rw [if_neg (fun h => hc h.1)]
  omega

theorem countPS_eq_zero (s : Str) (h : '%' ∉ s) : countPS s = 0 := by
  induction s with
  | nil => rfl
  | cons c rest ih =>
    rw [countPS_cons_ne c rest (fun hc => h (List.mem_cons.mpr (Or.inl hc.symm)))]
    exact ih (fun hm => h (List.mem_cons_of_mem _ hm))

/-- Splitting the placeholder count at a boundary whose right side does
not start with `s` (so no `%s` spans the boundary). -/
theorem countPS_append (a b : Str) (hb : b.head? ≠ some 's') :
    countPS (a ++ b) = countPS a + countPS b := by
  induction a with
  | nil => simp [countPS]
  | cons c rest ih =>
    rw [List.cons_append]
    show (if c = '%' ∧ (rest ++ b).head? = some 's' then 1 else 0) + countPS (rest ++ b) =
      ((if c = '%' ∧ rest.head? = some 's' then 1 else 0) + countPS rest) + countPS b
    rw [ih]
    cases rest with
    | nil =>
      rw [List.nil_append]
      rw [if_neg (fun h => hb h.2)]
      rw [if_neg (by simp)]
      simp [countPS]
    | cons r rs =>
      rw [List.cons_append]
      simp only [List.head?_cons]
      omega

/-- Splitting the placeholder count at a boundary whose left side does not
end with `%`. -/
theorem countPS_append_left (a b : Str) (ha : a.getLast? ≠ some '%') :
    countPS (a ++ b) = countPS a + countPS b := by
  induction a with
  | nil => simp [countPS]
  | cons c rest ih =>
    cases rest with
    | nil =>
      have hc : c ≠ '%' := by
        intro hcc
        exact ha (by rw [hcc]; rfl)
      rw [List.cons_append, List.nil_append]
      rw [countPS_cons_ne c b hc]
      rw [show countPS (c :: ([] : Str)) = 0 from countPS_cons_ne c [] hc]
      omega
    | cons r rs =>
      have ha' : (r :: rs).getLast? ≠ some '%' := by
        rwa [List.getLast?_cons_cons] at ha
      rw [List.cons_append]
      show (if c = '%' ∧ ((r :: rs) ++ b).head? = some 's' then 1 else 0) +
          countPS ((r :: rs) ++ b) =
        ((if c = '%' ∧ (r :: rs).head? = some 's' then 1 else 0) + countPS (r :: rs)) +
          countPS b
      rw [ih ha']
      rw [List.cons_append]
      simp only [List.head?_cons]
      omega

theorem countPS_newTuplePlaceholder (gid : Str) (h : '%' ∉ gid) :
    countPS (newTuplePlaceholder gid) = 2 := by
  unfold newTuplePlaceholder
  rw [countPS_append _ ((", %s, %s, NOW())").data) (by decide)]
  rw [countPS_append _ ('\'' :: []) (by decide)]
  rw [countPS_append_left ('(' :: '\'' :: []) gid (by decide)]
  rw [countPS_eq_zero gid h]
  decide

/-- For at least one pair, the generated tuple list starts with one tuple. -/
theorem join_replicate_tuple_decomp (gid : Str) (m : Nat) (hm : 1 ≤ m) :
    ∃ tail, joinCommaSpace (List.replicate m (newTuplePlaceholder gid)) =
      newTuplePlaceholder gid ++ tail := by
  cases m with
  | zero => omega
  | succ n =>
    cases n with
    | zero => exact ⟨[], by simp [joinCommaSpace]⟩
    | succ n2 =>
      rw [List.replicate_succ]
      rw [List.replicate_succ]
      exact ⟨',' :: ' ' :: joinCommaSpace
        (newTuplePlaceholder gid :: List.replicate n2 (newTuplePlaceholder gid)), rfl⟩

theorem countPS_join_tuples (gid : Str) (h : '%' ∉ gid) (m : Nat) :
    countPS (joinCommaSpace (List.replicate m (newTuplePlaceholder gid))) = 2 * m := by
  induction m with
  | zero => rfl
  | succ n ih =>
    cases n with
    | zero =>
      simpa [joinCommaSpace] using countPS_newTuplePlaceholder gid h
    | succ n2 =>
      rw [List.replicate_succ]
      rw [List.replicate_succ]
      rw [show joinCommaSpace (newTuplePlaceholder gid :: newTuplePlaceholder gid ::
            List.replicate n2 (newTuplePlaceholder gid)) =
          newTuplePlaceholder gid ++ (',' :: ' ' :: joinCommaSpace
            (newTuplePlaceholder gid :: List.replicate n2 (newTuplePlaceholder gid))) from rfl]
      rw [countPS_append (newTuplePlaceholder gid) _ (by simp)]
      rw [countPS_newTuplePlaceholder gid h]
      rw [countPS_cons_ne ',' _ (by decide)]
      rw [countPS_cons_ne ' ' _ (by decide)]
      rw [← List.replicate_succ]
      rw [ih]
      omega

set_option maxRecDepth 100000 in
/-- The template split of `upsert_stmt`: the marker occurs exactly once in
`SQL_UPSERT_USERID_KEY_VALUES_str`, so the replace yields the prefix, the
generated tuples, and the suffix. -/
theorem upsert_stmt_eq (gid : Str) (m : Nat) :
    upsert_stmt gid m =
      ("INSERT INTO user_key_value (GLOBUS_IDENTITY_ID, KEY_NAME, KEY_VALUE, UPSERT_UTC_TIME) VALUES ").data ++
      (joinCommaSpace (List.replicate m (newTuplePlaceholder gid)) ++
        (" AS ukv ON DUPLICATE KEY UPDATE GLOBUS_IDENTITY_ID=ukv.GLOBUS_IDENTITY_ID ,KEY_NAME=ukv.KEY_NAME ,KEY_VALUE=ukv.KEY_VALUE ,UPSERT_UTC_TIME=NOW()").data) := by
  rfl

set_option maxRecDepth 100000 in
/-- C2 counterexample: the claim asserts 3·M placeholders with the
identity bound per tuple; for identity `U1` and M = 1 pair the built
statement contains 2 placeholders, not 3, and the identity occurs
verbatim inside the statement text (concatenated, not bound). -/
theorem C2_counterexample :
    countPS (upsert_stmt ('U' :: '1' :: []) 1) ≠ 3 * 1 ∧
    hasSub ('U' :: '1' :: []) (upsert_stmt ('U' :: '1' :: []) 1) = true := by decide

set_option maxRecDepth 100000 in
/-- C2 amended: for M ≥ 1 pairs and an identity containing no percent
sign, the built statement contains exactly 2·M placeholders (key and
value per tuple), the bound parameter list contains exactly 2·M entries
(key and value per pair, no identity), and the identity is concatenated
into the statement text rather than bound. -/
theorem C2_amended_two_placeholders (gid : Str) (m : Nat) (pairs : List (Str × Str))
    (hg : '%' ∉ gid) (hp : pairs.length = m) (hm : 1 ≤ m) :
    countPS (upsert_stmt gid m) = 2 * m ∧
    (upsertParamList pairs).length = 2 * m ∧
    ∃ l r, upsert_stmt gid m = l ++ gid ++ r := by
  obtain ⟨tail, htail⟩ := join_replicate_tuple_decomp gid m hm
  refine ⟨?_, ?_, ?_⟩
  · rw [upsert_stmt_eq]
    rw [countPS_append _ _ (by rw [htail]; simp [newTuplePlaceholder])]
    rw [countPS_append _ _ (by simp)]
    rw [countPS_join_tuples gid hg m]
    rw [show countPS (("INSERT INTO user_key_value (GLOBUS_IDENTITY_ID, KEY_NAME, KEY_VALUE, UPSERT_UTC_TIME) VALUES ").data) = 0 from rfl]
    rw [show countPS ((" AS ukv ON DUPLICATE KEY UPDATE GLOBUS_IDENTITY_ID=ukv.GLOBUS_IDENTITY_ID ,KEY_NAME=ukv.KEY_NAME ,KEY_VALUE=ukv.KEY_VALUE ,UPSERT_UTC_TIME=NOW()").data) = 0 from rfl]
    omega
  · suffices hgen : ∀ acc : List Str,
        (pairs.foldl (fun acc p => acc ++ [p.1, p.2]) acc).length =
          acc.length + 2 * pairs.length by
      have h0 := hgen []
      simp only [List.length_nil] at h0
      rw [upsertParamList]
      omega
    clear hp
    induction pairs with
    | nil => intro acc; simp
    | cons p rest ih =>
      intro acc
      rw [List.foldl_cons, ih]
      simp only [List.length_append]
      simp only [List.length_cons, List.length_nil]
      omega
  · refine ⟨("INSERT INTO user_key_value (GLOBUS_IDENTITY_ID, KEY_NAME, KEY_VALUE, UPSERT_UTC_TIME) VALUES ").data ++ ('(' :: '\'' :: []),
      ('\'' :: []) ++ (", %s, %s, NOW())").data ++ tail ++
        (" AS ukv ON DUPLICATE KEY UPDATE GLOBUS_IDENTITY_ID=ukv.GLOBUS_IDENTITY_ID ,KEY_NAME=ukv.KEY_NAME ,KEY_VALUE=ukv.KEY_VALUE ,UPSERT_UTC_TIME=NOW()").data, ?_⟩
    rw [upsert_stmt_eq, htail]
    simp [newTuplePlaceholder, List.append_assoc]

/-- C2 amended witness: identity `U1`, one pair `(a, 1)`. -/
theorem C2_amended_witness :
    countPS (upsert_stmt ('U' :: '1' :: []) 1) = 2 * 1 ∧
    (upsertParamList ((('a' :: []), ('1' :: [])) :: [])).length = 2 * 1 ∧
    ∃ l r, upsert_stmt ('U' :: '1' :: []) 1 = l ++ ('U' :: '1' :: []) ++ r :=
  C2_amended_two_placeholders ('U' :: '1' :: []) 1 _ (by decide) (by decide) (by decide)

/-! ## Theorems about batch-upsert atomicity (claim C4) -/

/-- C4: the batch upsert is atomic.  Every malformed-pair or key-format
error is raised before any database access: the operation performs no
connection events and leaves the store untouched.  A data-store error
during the write leaves the store unchanged (the transaction is rolled
back, never committed) before the `UKVDataStoreQueryException` outcome. -/
theorem C4_upsert_many_atomic {V : Type} (dumps : V → Str) (gid : Str)
    (req : Req (ManyPayload V)) (initialAC dbOk : Bool) (store : List Row) :
    ((upsert_key_values_op dumps gid req initialAC dbOk store).outcome.isFormatError = true →
      (upsert_key_values_op dumps gid req initialAC dbOk store).store = store ∧
      (upsert_key_values_op dumps gid req initialAC dbOk store).events = []) ∧
    ((upsert_key_values_op dumps gid req initialAC dbOk store).outcome = .dataStoreError →
      (upsert_key_values_op dumps gid req initialAC dbOk store).store = store ∧
      Ev.rollback ∈ (upsert_key_values_op dumps gid req initialAC dbOk store).events ∧
      Ev.commit ∉ (upsert_key_values_op dumps gid req initialAC dbOk store).events) := by
  unfold upsert_key_values_op
  cases hload : load_endpoint_json manyAccepts manySize req with
  | error e => cases e <;> simp [loadErrOutcome, Outcome.isFormatError]
  | ok p =>
    cases p with
    | notList => simp [Outcome.isFormatError]
    | elems es =>
      cases hscan : scanPairs dumps es with
      | error u => simp [hscan, Outcome.isFormatError]
      | ok pairs =>
        cases hval : validate_key_list (pyDictKeys (pairs.map Prod.fst)) with
        | ok =>
          cases dbOk <;>
            simp [hscan, hval, Outcome.isFormatError, txFailureEvents, txSuccessEvents]
        | badKeyList errs => simp [hscan, hval, Outcome.isFormatError]

/-- C4 witness: the spec's example — the second pair's key contains
whitespace — at an initially empty store: nothing is stored and no
connection event happens. -/
theorem C4_witness :
    (upsert_key_values_op (fun _ : Unit => ('1' :: [])) ("U1").data
      ⟨true, some (some (.elems (.dict (some ("a").data) (some ()) ::
        .dict (some ("bad key").data) (some ()) :: [])))⟩ true true []).store = [] ∧
    (upsert_key_values_op (fun _ : Unit => ('1' :: [])) ("U1").data
      ⟨true, some (some (.elems (.dict (some ("a").data) (some ()) ::
        .dict (some ("bad key").data) (some ()) :: [])))⟩ true true []).events = [] :=
  (C4_upsert_many_atomic (fun _ : Unit => ('1' :: [])) ("U1").data
    ⟨true, some (some (.elems (.dict (some ("a").data) (some ()) ::
      .dict (some ("bad key").data) (some ()) :: [])))⟩ true true []).1 (by decide)

/-! ## Theorems about the autocommit restore discipline (claim C5) -/

/-- C5 counterexample: the claim says every write operation restores the
connection's prior autocommit setting before releasing it on every exit
path, including the rollback path.  On the data-store-error path of
`upsert_key_value` with prior setting `true`, the connection is acquired,
autocommit is disabled, the execute fails, the transaction is rolled back
and the connection is released — and no `setAutocommit true` restore
event ever occurs, because the raise inside the except block skips the
restore statement placed after the try/except. -/
theorem C5_counterexample :
    (upsert_key_value_op (fun _ : Unit => ('1' :: [])) ("U1").data ("a").data
        ⟨true, some (some (.collection () 1))⟩ true false []).events =
      (Ev.acquire :: Ev.setAutocommit false :: Ev.exec :: Ev.rollback ::
        Ev.release :: []) ∧
    Ev.setAutocommit true ∉
      (upsert_key_value_op (fun _ : Unit => ('1' :: [])) ("U1").data ("a").data
        ⟨true, some (some (.collection () 1))⟩ true false []).events ∧
    Ev.release ∈
      (upsert_key_value_op (fun _ : Unit => ('1' :: [])) ("U1").data ("a").data
        ⟨true, some (some (.collection () 1))⟩ true false []).events := by decide

/-- C5 amended: each write operation (upsert-one, upsert-many, delete)
restores the saved autocommit setting before releasing the connection on
the commit path — for delete this includes the not-found and
more-than-one-row branches, which raise only after the restore — but on
the data-store-error path the rollback and re-raise skip the restore and
the connection is released with autocommit still disabled. -/
theorem C5_amended_autocommit {V : Type} (dumps : V → Str) (gid vkey : Str)
    (reqO : Req (OnePayload V)) (reqM : Req (ManyPayload V))
    (initialAC dbOk : Bool) (store : List Row) :
    ((∀ n, (upsert_key_value_op dumps gid vkey reqO initialAC dbOk store).outcome = .stored n →
      (upsert_key_value_op dumps gid vkey reqO initialAC dbOk store).events =
        txSuccessEvents initialAC) ∧
     ((upsert_key_value_op dumps gid vkey reqO initialAC dbOk store).outcome = .dataStoreError →
      (upsert_key_value_op dumps gid vkey reqO initialAC dbOk store).events =
        txFailureEvents)) ∧
    ((∀ n, (upsert_key_values_op dumps gid reqM initialAC dbOk store).outcome = .stored n →
      (upsert_key_values_op dumps gid reqM initialAC dbOk store).events =
        txSuccessEvents initialAC) ∧
     ((upsert_key_values_op dumps gid reqM initialAC dbOk store).outcome = .dataStoreError →
      (upsert_key_values_op dumps gid reqM initialAC dbOk store).events =
        txFailureEvents)) ∧
    ((dbOk = true →
      (delete_key_value_op gid vkey initialAC dbOk store).events =
        txSuccessEvents initialAC) ∧
     ((delete_key_value_op gid vkey initialAC dbOk store).outcome = .dataStoreError →
      (delete_key_value_op gid vkey initialAC dbOk store).events = txFailureEvents)) := by
  refine ⟨⟨?_, ?_⟩, ⟨?_, ?_⟩, ⟨?_, ?_⟩⟩
  · intro n
    unfold upsert_key_value_op
    cases hload : load_endpoint_json oneAccepts oneSize reqO with
    | error e => cases e <;> simp [hload, loadErrOutcome]
    | ok p => cases dbOk <;> simp [hload]
  · unfold upsert_key_value_op
    cases hload : load_endpoint_json oneAccepts oneSize reqO with
    | error e => cases e <;> simp [hload, loadErrOutcome]
    | ok p => cases dbOk <;> simp [hload]
  · intro n
    unfold upsert_key_values_op
    cases hload : load_endpoint_json manyAccepts manySize reqM with
    | error e => cases e <;> simp [hload, loadErrOutcome]
    | ok p =>
      cases p with
      | notList => simp [hload]
      | elems es =>
        cases hscan : scanPairs dumps es with
        | error u => simp [hload, hscan]
        | ok pairs =>
          cases hval : validate_key_list (pyDictKeys (pairs.map Prod.fst)) with
          | ok => cases dbOk <;> simp [hload, hscan, hval]
          | badKeyList errs => simp [hload, hscan, hval]
  · unfold upsert_key_values_op
    cases hload : load_endpoint_json manyAccepts manySize reqM with
    | error e => cases e <;> simp [hload, loadErrOutcome]
    | ok p =>
      cases p with
      | notList => simp [hload]
      | elems es =>
        cases hscan : scanPairs dumps es with
        | error u => simp [hload, hscan]
        | ok pairs =>
          cases hval : validate_key_list (pyDictKeys (pairs.map Prod.fst)) with
          | ok => cases dbOk <;> simp [hload, hscan, hval]
          | badKeyList errs => simp [hload, hscan, hval]
  · intro hdb
    subst hdb
    unfold delete_key_value_op
    by_cases h1 : (matchingRows gid vkey store).length = 1 <;>
      by_cases h0 : (matchingRows gid vkey store).length = 0 <;>
      simp [h1, h0]
  · unfold delete_key_value_op
    cases dbOk with
    | true =>
      by_cases h1 : (matchingRows gid vkey store).length = 1 <;>
        by_cases h0 : (matchingRows gid vkey store).length = 0 <;>
        simp [h1, h0]
    | false => simp

/-- C5 amended witness: a successful single upsert restores autocommit
(`setAutocommit true` precedes `release`), and a failed one emits the
rollback trace. -/
theorem C5_amended_witness :
    (upsert_key_value_op (fun _ : Unit => ('1' :: [])) ("U1").data ("a").data
        ⟨true, some (some (.collection () 1))⟩ true true []).events =
      txSuccessEvents true ∧
    (upsert_key_value_op (fun _ : Unit => ('1' :: [])) ("U1").data ("a").data
        ⟨true, some (some (.collection () 1))⟩ true false []).events =
      txFailureEvents :=
  ⟨((C5_amended_autocommit (fun _ : Unit => ('1' :: [])) ("U1").data ("a").data
      ⟨true, some (some (.collection () 1))⟩ ⟨true, none⟩ true true []).1.1) 1 (by decide),
   ((C5_amended_autocommit (fun _ : Unit => ('1' :: [])) ("U1").data ("a").data
      ⟨true, some (some (.collection () 1))⟩ ⟨true, none⟩ true false []).1.2) (by decide)⟩

/-! ## Theorems about delete row-count semantics (claim C8) -/

/-- C8: when the delete statement executes without a data-store error, the
operation returns a confirmation iff exactly one row was affected, raises
`UKVKeyNotFoundException` iff zero rows were affected, and raises the
integrity `UKVDataStoreQueryException` iff more than one row was
affected. -/
theorem C8_delete_rowcount (gid vkey : Str) (initialAC : Bool) (store : List Row) :
    ((delete_key_value_op gid vkey initialAC true store).outcome = .deleted ↔
      (matchingRows gid vkey store).length = 1) ∧
    ((delete_key_value_op gid vkey initialAC true store).outcome = .keyNotFound ↔
      (matchingRows gid vkey store).length = 0) ∧
    ((delete_key_value_op gid vkey initialAC true store).outcome = .integrityError ↔
      1 < (matchingRows gid vkey store).length) := by
  unfold delete_key_value_op
  by_cases h1 : (matchingRows gid vkey store).length = 1 <;>
    by_cases h0 : (matchingRows gid vkey store).length = 0 <;>
    simp [h1, h0] <;>
    omega

/-! ## Theorems about validation before database access (claim C9) -/

theorem find_named_op_format_no_events (table : List Row) (gid : Str)
    (req : Req FindPayload)
    (h : (find_named_op table gid req).outcome.isFormatError = true) :
    (find_named_op table gid req).events = [] := by
  revert h
  unfold find_named_op
  cases hload : load_endpoint_json findAccepts findSize req with
  | error e => cases e <;> simp [hload, loadErrOutcome]
  | ok p =>
    cases p with
    | notList => simp [hload]
    | keys ks =>
      cases hval : validate_key_list ks with
      | ok =>
        cases hfind : find_named_result table gid ks <;>
          simp [hload, hval, hfind, Outcome.isFormatError]
      | badKeyList errs => simp [hload, hval]

theorem route_upsert_format_no_events {V : Type} (dumps : V → Str) (gid key : Str)
    (req : Req (OnePayload V)) (initialAC dbOk : Bool) (store : List Row)
    (h : (route_upsert_key_value dumps gid key req initialAC dbOk store).outcome.isFormatError =
      true) :
    (route_upsert_key_value dumps gid key req initialAC dbOk store).events = [] := by
  revert h
  unfold route_upsert_key_value
  cases hkey : validate_key key with
  | ok =>
    unfold upsert_key_value_op
    cases hload : load_endpoint_json oneAccepts oneSize req with
    | error e => cases e <;> simp [hkey, hload, loadErrOutcome]
    | ok p => cases dbOk <;> simp [hkey, hload, Outcome.isFormatError]
  | keyTooLong => simp [hkey]
  | keyWhitespace => simp [hkey]
  | keyBadChar => simp [hkey]
  | keyBadSeq => simp [hkey]

theorem upsert_many_format_no_events {V : Type} (dumps : V → Str) (gid : Str)
    (req : Req (ManyPayload V)) (initialAC dbOk : Bool) (store : List Row)
    (h : (upsert_key_values_op dumps gid req initialAC dbOk store).outcome.isFormatError =
      true) :
    (upsert_key_values_op dumps gid req initialAC dbOk store).events = [] := by
  revert h
  unfold upsert_key_values_op
  cases hload : load_endpoint_json manyAccepts manySize req with
  | error e => cases e <;> simp [hload, loadErrOutcome]
  | ok p =>
    cases p with
    | notList => simp [hload]
    | elems es =>
      cases hscan : scanPairs dumps es with
      | error u => simp [hload, hscan]
      | ok pairs =>
        cases hval : validate_key_list (pyDictKeys (pairs.map Prod.fst)) with
        | ok => cases dbOk <;> simp [hload, hscan, hval, Outcome.isFormatError]
        | badKeyList errs => simp [hload, hscan, hval]

theorem route_get_format_no_events (gid key : Str) (store : List Row)
    (h : (route_get_key_value gid key store).outcome.isFormatError = true) :
    (route_get_key_value gid key store).events = [] := by
  revert h
  unfold route_get_key_value
  cases hkey : validate_key key with
  | ok =>
    unfold get_key_value_op
    cases hfind : (matchingRows gid key store).head? <;>
      simp [hkey, hfind, Outcome.isFormatError]
  | keyTooLong => simp [hkey]
  | keyWhitespace => simp [hkey]
  | keyBadChar => simp [hkey]
  | keyBadSeq => simp [hkey]

theorem route_delete_format_no_events (gid key : Str) (initialAC dbOk : Bool)
    (store : List Row)
    (h : (route_delete_key_value gid key initialAC dbOk store).outcome.isFormatError = true) :
    (route_delete_key_value gid key initialAC dbOk store).events = [] := by
  revert h
  unfold route_delete_key_value
  cases hkey : validate_key key with
  | ok =>
    unfold delete_key_value_op
    cases dbOk with
    | true =>
      by_cases h1 : (matchingRows gid key store).length = 1 <;>
        by_cases h0 : (matchingRows gid key store).length = 0 <;>
        simp [hkey, h1, h0, Outcome.isFormatError]
    | false => simp [hkey, Outcome.isFormatError]
  | keyTooLong => simp [hkey]
  | keyWhitespace => simp [hkey]
  | keyBadChar => simp [hkey]
  | keyBadSeq => simp [hkey]

/-- C9: for every operation, a request-format, value-format or key-format
error (including a bad key list) is raised before a database connection is
acquired: on any format-error outcome the operation performs no
connection events at all. -/
theorem C9_format_errors_before_db {V : Type} (dumps : V → Str) (gid key : Str)
    (reqF : Req FindPayload) (reqO : Req (OnePayload V)) (reqM : Req (ManyPayload V))
    (table store : List Row) (initialAC dbOk : Bool) :
    ((find_named_op table gid reqF).outcome.isFormatError = true →
      (find_named_op table gid reqF).events = []) ∧
    ((route_upsert_key_value dumps gid key reqO initialAC dbOk store).outcome.isFormatError =
        true →
      (route_upsert_key_value dumps gid key reqO initialAC dbOk store).events = []) ∧
    ((upsert_key_values_op dumps gid reqM initialAC dbOk store).outcome.isFormatError = true →
      (upsert_key_values_op dumps gid reqM initialAC dbOk store).events = []) ∧
    ((route_get_key_value gid key store).outcome.isFormatError = true →
      (route_get_key_value gid key store).events = []) ∧
    ((route_delete_key_value gid key initialAC dbOk store).outcome.isFormatError = true →
      (route_delete_key_value gid key initialAC dbOk store).events = []) :=
  ⟨find_named_op_format_no_events table gid reqF,
   route_upsert_format_no_events dumps gid key reqO initialAC dbOk store,
   upsert_many_format_no_events dumps gid reqM initialAC dbOk store,
   route_get_format_no_events gid key store,
   route_delete_format_no_events gid key initialAC dbOk store⟩

/-- C9 witness: a non-JSON find request, a whitespace key on the
upsert/get/delete routes, and a malformed batch payload each produce a
format error with no connection events. -/
theorem C9_witness :
    (find_named_op [] ("U1").data ⟨false, none⟩).events = [] ∧
    (route_upsert_key_value (fun _ : Unit => ('1' :: [])) ("U1").data ("a b").data
      ⟨true, some (some (.collection () 1))⟩ true true []).events = [] ∧
    (upsert_key_values_op (fun _ : Unit => ('1' :: [])) ("U1").data
      ⟨true, some (some (.elems (PElem.nonDict :: [])))⟩ true true []).events = [] ∧
    (route_get_key_value ("U1").data ("a b").data []).events = [] ∧
    (route_delete_key_value ("U1").data ("a b").data true true []).events = [] := by
  obtain ⟨h1, h2, h3, h4, h5⟩ :=
    C9_format_errors_before_db (fun _ : Unit => ('1' :: [])) ("U1").data ("a b").data
      ⟨false, none⟩ ⟨true, some (some (.collection () 1))⟩
      ⟨true, some (some (.elems (PElem.nonDict :: [])))⟩ [] [] true true
  exact ⟨h1 (by decide), h2 (by decide), h3 (by decide), h4 (by decide), h5 (by decide)⟩

end UKV
